import Mathlib

/-!
Shallow embedding of the model-fallback sequencer of `src/app.py`
(`smart_translate_humor` and its caller) together with the persistence
hand-off (`save_translation_to_db` call site), and proofs about it.

The network is modelled by an environment `env : Nat → TransportResult`
giving, for each attempt index, what the single `requests.post` call of
that attempt produces.
-/

namespace HumorApp

/-- The fixed priority list `FREE_MODELS` of `src/app.py`. -/
def FREE_MODELS : List String :=
  [ "mistralai/mistral-small-3.2-24b-instruct:free"
  , "meta-llama/llama-3-8b-instruct:free"
  , "google/gemma-7b-it:free"
  , "nousresearch/nous-hermes-2-mixtral-8x7b-dpo:free"
  , "google/gemma-2b-it:free"
  , "meta-llama/llama-2-13b-chat:free"
  , "microsoft/wizardlm-2-8x22b:free"
  , "undi95/toppy-m-7b:free" ]

/-- Python's `str.strip()`: drop whitespace from both ends. -/
def pyStrip (s : String) : String :=
  ⟨(((s.data.dropWhile Char.isWhitespace).reverse.dropWhile Char.isWhitespace).reverse)⟩

/-- Python truthiness of a string: non-empty means truthy. -/
def pyTruthy (s : String) : Bool := !(s == "")

/-- Model of line 121 of `src/app.py`: the part of the model id after
the last slash. -/
def modelName (m : String) : String := ⟨(m.data.splitOn '/').getLastD []⟩

/-- The log line built at line 122 from the attempt number and the model
name; `i` is the 0-based loop index. -/
def attemptEntry (i : Nat) (m : String) : String :=
  "Attempt " ++ toString (i + 1) ++ ": " ++ modelName m

/-- What the code can observe of a 200-response body in lines 142-148:
`response.json()` may raise (`malformed`), parse without a `"choices"` key
(`noChoices`), have a `"choices"` key from which
`["choices"][0]["message"]["content"]` extraction raises (`badChoices`),
or yield a content string. -/
inductive BodyParse where
  | malformed
  | noChoices
  | badChoices
  | content (s : String)
deriving DecidableEq, Repr

/-- The result of the single `requests.post` of one attempt (line 135):
an HTTP response with a status code and a body, a
`requests.exceptions.Timeout`, or any other exception. -/
inductive TransportResult where
  | response (status : Nat) (body : BodyParse)
  | timeout
  | netError
deriving DecidableEq, Repr

/-- How one attempt ends, following the branch structure of lines 142-176. -/
inductive Outcome where
  | accept (s : String)
  | timeout
  | exception
  | emptyResponse
  | noChoices
  | rateLimited
  | overloaded
  | httpError
deriving DecidableEq, Repr

/-- Classification of one attempt's transport result, mirroring lines
142-176 of `src/app.py`: 200 with extractable content is accepted iff the
stripped content is longer than 10 characters, otherwise it is the empty
response branch; parse failures on a 200 land in the generic `except`
(exception); non-200 statuses are distinguished as 429/503/other; a
`Timeout` and any other exception take the two `except` branches. -/
def classify : TransportResult → Outcome
  | .timeout => .timeout
  | .netError => .exception
  | .response status body =>
    if status = 200 then
      match body with
      | .malformed => .exception
      | .badChoices => .exception
      | .noChoices => .noChoices
      | .content s => if 10 < (pyStrip s).length then .accept s else .emptyResponse
    else if status = 429 then .rateLimited
    else if status = 503 then .overloaded
    else .httpError

/-- The value of one call to `smart_translate_humor`, plus two observables:
the seconds spent in `time.sleep` and the models actually contacted. -/
structure SeqResult where
  producedText : Option String
  modelUsed : Option String
  attempts : List String
  sleepSeconds : Nat
  contacted : List String
deriving DecidableEq, Repr

/-- The `for i, model in enumerate(FREE_MODELS[:max_attempts])` loop of
lines 119-176, with accumulators for the `attempts` list, the slept
seconds and the contacted models.  Each iteration appends the base entry
and issues one request; on accept it returns at once; a `Timeout` or other
exception appends a tagged entry and skips the sleep; every other non-200
or thin-200 outcome falls through to `time.sleep(2)` when `i <
max_attempts - 1`. -/
def runLoop (env : Nat → TransportResult) (maxAttempts : Nat) :
    List String → Nat → List String → Nat → List String → SeqResult
  | [], _, atts, slept, contacted => ⟨none, none, atts, slept, contacted⟩
  | m :: rest, i, atts, slept, contacted =>
    let atts1 := atts ++ [attemptEntry i m]
    let contacted1 := contacted ++ [m]
    match classify (env i) with
    | .accept s => ⟨some s, some m, atts1, slept, contacted1⟩
    | .timeout =>
        runLoop env maxAttempts rest (i + 1)
          (atts1 ++ [attemptEntry i m ++ " - Timeout"]) slept contacted1
    | .exception =>
        runLoop env maxAttempts rest (i + 1)
          (atts1 ++ [attemptEntry i m ++ " - Error"]) slept contacted1
    | _ =>
        runLoop env maxAttempts rest (i + 1) atts1
          (if i < maxAttempts - 1 then slept + 2 else slept) contacted1

/-- Model of `smart_translate_humor` (lines 101-179):
the prompt plays no role in the control flow, so the function is modelled
on the attempt budget and the transport environment. -/
def smart_translate_humor (env : Nat → TransportResult) (max_attempts : Nat) :
    SeqResult :=
  runLoop env max_attempts (FREE_MODELS.take max_attempts) 0 [] 0 []

/-- The validation at line 261: `if not input_text or not target_culture`
short-circuits with a warning; otherwise the sequencer runs. -/
def translate_button (env : Nat → TransportResult)
    (input_text target_culture : String) (max_attempts : Nat) :
    Option SeqResult :=
  if !(pyTruthy input_text) || !(pyTruthy target_culture) then none
  else some (smart_translate_humor env max_attempts)

/-! ### Persistence hand-off (lines 270, 310-316 and `save_translation_to_db`) -/

/-- The row inserted into `humor_translations` by `save_translation_to_db`. -/
structure TranslationRecord where
  user_email : String
  original_text : String
  target_culture : String
  translated_text : String
  model_used : String
deriving DecidableEq, Repr

/-- Model of `save_translation_to_db`: the row built at lines 72-78. -/
def save_translation_to_db (user_email input_text target_culture
    translated_text model_used : String) : TranslationRecord :=
  ⟨user_email, input_text, target_culture, translated_text, model_used⟩

/-- Python truthiness of an optional string (`None` and `""` are falsy). -/
def pyTruthyOpt : Option String → Bool
  | none => false
  | some s => pyTruthy s

/-- The result-display branch of lines 270 and 315-316: a record is
inserted exactly when `translated_text` is truthy, the save checkbox is
on, and `model_used` is truthy. -/
def render_translation (user_email input_text target_culture : String)
    (save_flag : Bool) (r : SeqResult) : Option TranslationRecord :=
  if pyTruthyOpt r.producedText then
    if save_flag && pyTruthyOpt r.modelUsed then
      some (save_translation_to_db user_email input_text target_culture
        (r.producedText.getD "") (r.modelUsed.getD ""))
    else none
  else none

/-! ### Spec-level recomputations of the loop's observables -/

/-- Whether the attempt at index `i` is accepted. -/
def acceptsAt (env : Nat → TransportResult) (i : Nat) : Bool :=
  match classify (env i) with
  | .accept _ => true
  | _ => false

/-- The log entries one attempt contributes: the base entry always, plus a
tagged copy when the attempt ended in a timeout or another exception. -/
def entriesFor (i : Nat) (m : String) : Outcome → List String
  | .timeout => [attemptEntry i m, attemptEntry i m ++ " - Timeout"]
  | .exception => [attemptEntry i m, attemptEntry i m ++ " - Error"]
  | _ => [attemptEntry i m]

/-- The full log the loop writes while walking `ms` from index `i`. -/
def logOf (env : Nat → TransportResult) : Nat → List String → List String
  | _, [] => []
  | i, m :: rest => entriesFor i m (classify (env i)) ++ logOf env (i + 1) rest

/-- Whether an outcome reaches the `time.sleep(2)` at line 167: accepted
attempts return first, and the two `except` branches jump past it. -/
def sleepsAfter : Outcome → Bool
  | .accept _ => false
  | .timeout => false
  | .exception => false
  | _ => true

/-- Whether an outcome is a timeout or another exception (the two outcomes
that append a second, tagged log entry). -/
def isTE : Outcome → Bool
  | .timeout => true
  | .exception => true
  | _ => false

/-- How many attempts the loop performs on `ms` from index `i`: it stops
right after the first accepted attempt, else walks all of `ms`. -/
def processedCount (env : Nat → TransportResult) : Nat → List String → Nat
  | _, [] => 0
  | i, _ :: rest =>
      1 + (if acceptsAt env i then 0 else processedCount env (i + 1) rest)

/-- Number of timeout/exception attempts while walking `ms` from `i`. -/
def teCount (env : Nat → TransportResult) : Nat → List String → Nat
  | _, [] => 0
  | i, _ :: rest =>
      (if isTE (classify (env i)) then 1 else 0) + teCount env (i + 1) rest

/-- Number of `time.sleep(2)` calls while walking `ms` from `i` with
budget `k`. -/
def pauseCount (env : Nat → TransportResult) (k : Nat) :
    Nat → List String → Nat
  | _, [] => 0
  | i, _ :: rest =>
      if acceptsAt env i then 0
      else (if sleepsAfter (classify (env i)) ∧ i < k - 1 then 1 else 0)
            + pauseCount env k (i + 1) rest

/-! ### Loop lemmas -/

/-- Running the loop with non-empty accumulators just prefixes them. -/
theorem runLoop_state (env : Nat → TransportResult) (k : Nat) :
    ∀ (ms : List String) (i : Nat) (atts : List String) (slept : Nat)
      (contacted : List String),
    runLoop env k ms i atts slept contacted =
      ⟨(runLoop env k ms i [] 0 []).producedText,
       (runLoop env k ms i [] 0 []).modelUsed,
       atts ++ (runLoop env k ms i [] 0 []).attempts,
       slept + (runLoop env k ms i [] 0 []).sleepSeconds,
       contacted ++ (runLoop env k ms i [] 0 []).contacted⟩ := by
  intro ms
  induction ms with
  | nil => intro i atts slept contacted; simp [runLoop]
  | cons m rest ih =>
      intro i atts slept contacted
      simp only [runLoop]
      cases h : classify (env i) with
      | accept s => simp
      | timeout =>
          rw [ih (i + 1) (atts ++ [attemptEntry i m] ++ [attemptEntry i m ++ " - Timeout"]),
              ih (i + 1) ([] ++ [attemptEntry i m] ++ [attemptEntry i m ++ " - Timeout"])]
          simp
      | exception =>
          rw [ih (i + 1) (atts ++ [attemptEntry i m] ++ [attemptEntry i m ++ " - Error"]),
              ih (i + 1) ([] ++ [attemptEntry i m] ++ [attemptEntry i m ++ " - Error"])]
          simp
      | emptyResponse | noChoices | rateLimited | overloaded | httpError =>
          rw [ih (i + 1) (atts ++ [attemptEntry i m]),
              ih (i + 1) ([] ++ [attemptEntry i m])]
          by_cases hk : i < k - 1 <;> simp [hk, Nat.add_assoc, Nat.add_comm 2]

/-- One loop step on an accepted attempt. -/
theorem runLoop_cons_accept (env : Nat → TransportResult) (k : Nat)
    {i : Nat} {s : String} (m : String) (rest : List String)
    (h : classify (env i) = .accept s) :
    runLoop env k (m :: rest) i [] 0 [] =
      ⟨some s, some m, [attemptEntry i m], 0, [m]⟩ := by
  simp [runLoop, h]

/-- One loop step on a timed-out attempt. -/
theorem runLoop_cons_timeout (env : Nat → TransportResult) (k : Nat)
    {i : Nat} (m : String) (rest : List String)
    (h : classify (env i) = .timeout) :
    runLoop env k (m :: rest) i [] 0 [] =
      ⟨(runLoop env k rest (i + 1) [] 0 []).producedText,
       (runLoop env k rest (i + 1) [] 0 []).modelUsed,
       attemptEntry i m :: (attemptEntry i m ++ " - Timeout")
         :: (runLoop env k rest (i + 1) [] 0 []).attempts,
       (runLoop env k rest (i + 1) [] 0 []).sleepSeconds,
       m :: (runLoop env k rest (i + 1) [] 0 []).contacted⟩ := by
  simp only [runLoop, h]
  rw [runLoop_state]
  simp

/-- One loop step on an attempt that raised some other exception. -/
theorem runLoop_cons_exception (env : Nat → TransportResult) (k : Nat)
    {i : Nat} (m : String) (rest : List String)
    (h : classify (env i) = .exception) :
    runLoop env k (m :: rest) i [] 0 [] =
      ⟨(runLoop env k rest (i + 1) [] 0 []).producedText,
       (runLoop env k rest (i + 1) [] 0 []).modelUsed,
       attemptEntry i m :: (attemptEntry i m ++ " - Error")
         :: (runLoop env k rest (i + 1) [] 0 []).attempts,
       (runLoop env k rest (i + 1) [] 0 []).sleepSeconds,
       m :: (runLoop env k rest (i + 1) [] 0 []).contacted⟩ := by
  simp only [runLoop, h]
  rw [runLoop_state]
  simp

/-- One loop step on a non-accepted attempt that reaches the sleep. -/
theorem runLoop_cons_continue (env : Nat → TransportResult) (k : Nat)
    {i : Nat} (m : String) (rest : List String)
    (h : sleepsAfter (classify (env i)) = true) :
    runLoop env k (m :: rest) i [] 0 [] =
      ⟨(runLoop env k rest (i + 1) [] 0 []).producedText,
       (runLoop env k rest (i + 1) [] 0 []).modelUsed,
       attemptEntry i m :: (runLoop env k rest (i + 1) [] 0 []).attempts,
       (if i < k - 1 then 2 else 0)
         + (runLoop env k rest (i + 1) [] 0 []).sleepSeconds,
       m :: (runLoop env k rest (i + 1) [] 0 []).contacted⟩ := by
  cases hc : classify (env i) with
  | accept s => rw [hc] at h; simp [sleepsAfter] at h
  | timeout => rw [hc] at h; simp [sleepsAfter] at h
  | exception => rw [hc] at h; simp [sleepsAfter] at h
  | emptyResponse | noChoices | rateLimited | overloaded | httpError =>
      simp only [runLoop, hc]
      rw [runLoop_state]
      by_cases hk : i < k - 1 <;> simp [hk]

/-- The attempts list the loop returns is the spec-level log of the
processed prefix. -/
theorem runLoop_attempts_eq (env : Nat → TransportResult) (k : Nat) :
    ∀ (ms : List String) (i : Nat),
    (runLoop env k ms i [] 0 []).attempts
      = logOf env i (ms.take (processedCount env i ms)) := by
  intro ms
  induction ms with
  | nil => intro i; simp [runLoop, processedCount, logOf]
  | cons m rest ih =>
      intro i
      cases hc : classify (env i) with
      | accept s =>
          rw [runLoop_cons_accept env k m rest hc]
          simp [processedCount, acceptsAt, hc, logOf, entriesFor]
      | timeout =>
          rw [runLoop_cons_timeout env k m rest hc]
          simp [processedCount, acceptsAt, hc, logOf, entriesFor, ih, Nat.one_add]
      | exception =>
          rw [runLoop_cons_exception env k m rest hc]
          simp [processedCount, acceptsAt, hc, logOf, entriesFor, ih, Nat.one_add]
      | emptyResponse | noChoices | rateLimited | overloaded | httpError =>
          rw [runLoop_cons_continue env k m rest (by rw [hc]; rfl)]
          simp [processedCount, acceptsAt, hc, logOf, entriesFor, ih, Nat.one_add]

/-- The contacted models are exactly the processed prefix. -/
theorem runLoop_contacted_eq (env : Nat → TransportResult) (k : Nat) :
    ∀ (ms : List String) (i : Nat),
    (runLoop env k ms i [] 0 []).contacted
      = ms.take (processedCount env i ms) := by
  intro ms
  induction ms with
  | nil => intro i; simp [runLoop, processedCount]
  | cons m rest ih =>
      intro i
      cases hc : classify (env i) with
      | accept s =>
          rw [runLoop_cons_accept env k m rest hc]
          simp [processedCount, acceptsAt, hc]
      | timeout =>
          rw [runLoop_cons_timeout env k m rest hc]
          simp [processedCount, acceptsAt, hc, ih, Nat.one_add]
      | exception =>
          rw [runLoop_cons_exception env k m rest hc]
          simp [processedCount, acceptsAt, hc, ih, Nat.one_add]
      | emptyResponse | noChoices | rateLimited | overloaded | httpError =>
          rw [runLoop_cons_continue env k m rest (by rw [hc]; rfl)]
          simp [processedCount, acceptsAt, hc, ih, Nat.one_add]

/-- Total slept time is two seconds per counted pause. -/
theorem runLoop_slept_eq (env : Nat → TransportResult) (k : Nat) :
    ∀ (ms : List String) (i : Nat),
    (runLoop env k ms i [] 0 []).sleepSeconds
      = 2 * pauseCount env k i ms := by
  intro ms
  induction ms with
  | nil => intro i; simp [runLoop, pauseCount]
  | cons m rest ih =>
      intro i
      cases hc : classify (env i) with
      | accept s =>
          rw [runLoop_cons_accept env k m rest hc]
          simp [pauseCount, acceptsAt, hc]
      | timeout =>
          rw [runLoop_cons_timeout env k m rest hc]
          simp [pauseCount, acceptsAt, hc, sleepsAfter, ih]
      | exception =>
          rw [runLoop_cons_exception env k m rest hc]
          simp [pauseCount, acceptsAt, hc, sleepsAfter, ih]
      | emptyResponse | noChoices | rateLimited | overloaded | httpError =>
          rw [runLoop_cons_continue env k m rest (by rw [hc]; rfl)]
          by_cases hk : i < k - 1 <;>
            simp [pauseCount, acceptsAt, hc, sleepsAfter, hk, ih,
              Nat.mul_add]

/-- On a non-accepted attempt the produced text and the model used are
those of the rest of the loop. -/
theorem runLoop_cons_nonaccept (env : Nat → TransportResult) (k : Nat)
    {i : Nat} (m : String) (rest : List String)
    (h : acceptsAt env i = false) :
    (runLoop env k (m :: rest) i [] 0 []).producedText
        = (runLoop env k rest (i + 1) [] 0 []).producedText ∧
    (runLoop env k (m :: rest) i [] 0 []).modelUsed
        = (runLoop env k rest (i + 1) [] 0 []).modelUsed := by
  cases hc : classify (env i) with
  | accept s => simp [acceptsAt, hc] at h
  | timeout => rw [runLoop_cons_timeout env k m rest hc]; exact ⟨rfl, rfl⟩
  | exception => rw [runLoop_cons_exception env k m rest hc]; exact ⟨rfl, rfl⟩
  | emptyResponse | noChoices | rateLimited | overloaded | httpError =>
      rw [runLoop_cons_continue env k m rest (by rw [hc]; rfl)]
      exact ⟨rfl, rfl⟩

/-- If no attempt of `ms` is accepted, the loop exhausts with no text and
no model. -/
theorem runLoop_none (env : Nat → TransportResult) (k : Nat) :
    ∀ (ms : List String) (i : Nat),
    (∀ j, j < ms.length → acceptsAt env (i + j) = false) →
    (runLoop env k ms i [] 0 []).producedText = none ∧
    (runLoop env k ms i [] 0 []).modelUsed = none := by
  intro ms
  induction ms with
  | nil => intro i _; simp [runLoop]
  | cons m rest ih =>
      intro i h
      have h0 : acceptsAt env i = false := by
        have := h 0 (by simp)
        simpa using this
      have hshift : ∀ j, j < rest.length → acceptsAt env (i + 1 + j) = false := by
        intro j hj
        rw [show i + 1 + j = i + (j + 1) by omega]
        exact h (j + 1) (by simp; omega)
      have := ih (i + 1) hshift
      have hr := runLoop_cons_nonaccept env k m rest h0
      exact ⟨hr.1.trans this.1, hr.2.trans this.2⟩

/-- If the first accepted attempt is at relative position `j`, the loop
returns that attempt's content and model, after processing `j + 1`
models. -/
theorem runLoop_accept (env : Nat → TransportResult) (k : Nat) :
    ∀ (ms : List String) (i j : Nat) (s : String),
    j < ms.length →
    (∀ l, l < j → acceptsAt env (i + l) = false) →
    classify (env (i + j)) = .accept s →
    (runLoop env k ms i [] 0 []).producedText = some s ∧
    (runLoop env k ms i [] 0 []).modelUsed = ms[j]? ∧
    processedCount env i ms = j + 1 := by
  intro ms
  induction ms with
  | nil => intro i j s hj; simp at hj
  | cons m rest ih =>
      intro i j s hj hprev hacc
      cases j with
      | zero =>
          rw [Nat.add_zero] at hacc
          rw [runLoop_cons_accept env k m rest hacc]
          simp [processedCount, acceptsAt, hacc]
      | succ j' =>
          have h0 : acceptsAt env i = false := by
            have := hprev 0 (Nat.succ_pos j')
            simpa using this
          have hprev' : ∀ l, l < j' → acceptsAt env (i + 1 + l) = false := by
            intro l hl
            rw [show i + 1 + l = i + (l + 1) by omega]
            exact hprev (l + 1) (by omega)
          have hacc' : classify (env (i + 1 + j')) = .accept s := by
            rw [show i + 1 + j' = i + (j' + 1) by omega]; exact hacc
          have hrec := ih (i + 1) j' s (by simpa using hj) hprev' hacc'
          have hr := runLoop_cons_nonaccept env k m rest h0
          refine ⟨hr.1.trans hrec.1, hr.2.trans ?_, ?_⟩
          · rw [hrec.2.1]; simp
          · simp [processedCount, h0, hrec.2.2, Nat.one_add]

/-- Conversely, a produced text comes from a first accepted attempt. -/
theorem runLoop_some (env : Nat → TransportResult) (k : Nat) :
    ∀ (ms : List String) (i : Nat) (s : String),
    (runLoop env k ms i [] 0 []).producedText = some s →
    ∃ j, j < ms.length ∧
      (∀ l, l < j → acceptsAt env (i + l) = false) ∧
      classify (env (i + j)) = .accept s ∧
      (runLoop env k ms i [] 0 []).modelUsed = ms[j]? ∧
      processedCount env i ms = j + 1 := by
  intro ms
  induction ms with
  | nil => intro i s h; simp [runLoop] at h
  | cons m rest ih =>
      intro i s h
      cases hc : classify (env i) with
      | accept t =>
          rw [runLoop_cons_accept env k m rest hc] at h ⊢
          have hts : t = s := by simpa using h
          subst hts
          refine ⟨0, by simp, by omega, by simpa using hc, by simp, ?_⟩
          simp [processedCount, acceptsAt, hc]
      | timeout | exception | emptyResponse | noChoices | rateLimited
      | overloaded | httpError =>
          have h0 : acceptsAt env i = false := by simp [acceptsAt, hc]
          have hr := runLoop_cons_nonaccept env k m rest h0
          obtain ⟨j', hj', hprev', hacc', hmu', hpc'⟩ :=
            ih (i + 1) s (hr.1 ▸ h)
          refine ⟨j' + 1, by simpa using hj', ?_, ?_, ?_, ?_⟩
          · intro l hl
            cases l with
            | zero => simpa using h0
            | succ l' =>
                rw [show i + (l' + 1) = i + 1 + l' by omega]
                exact hprev' l' (by omega)
          · rw [show i + (j' + 1) = i + 1 + j' by omega]; exact hacc'
          · rw [hr.2, hmu']; simp
          · simp [processedCount, h0, hpc', Nat.one_add]

/-- The produced text is absent exactly when the model used is absent. -/
theorem runLoop_none_iff (env : Nat → TransportResult) (k : Nat) :
    ∀ (ms : List String) (i : Nat),
    ((runLoop env k ms i [] 0 []).producedText = none ↔
     (runLoop env k ms i [] 0 []).modelUsed = none) := by
  intro ms
  induction ms with
  | nil => intro i; simp [runLoop]
  | cons m rest ih =>
      intro i
      cases hc : classify (env i) with
      | accept s => rw [runLoop_cons_accept env k m rest hc]; simp
      | timeout | exception | emptyResponse | noChoices | rateLimited
      | overloaded | httpError =>
          have h0 : acceptsAt env i = false := by simp [acceptsAt, hc]
          have hr := runLoop_cons_nonaccept env k m rest h0
          rw [hr.1, hr.2]
          exact ih (i + 1)

/-- The loop never processes more models than it is given. -/
theorem processedCount_le (env : Nat → TransportResult) :
    ∀ (ms : List String) (i : Nat), processedCount env i ms ≤ ms.length := by
  intro ms
  induction ms with
  | nil => intro i; simp [processedCount]
  | cons m rest ih =>
      intro i
      by_cases h : acceptsAt env i = true <;>
        simp [processedCount, h, Nat.one_add]
      exact ih (i + 1)

/-- With no accepted attempt, the loop processes the whole list. -/
theorem processedCount_eq_length (env : Nat → TransportResult) :
    ∀ (ms : List String) (i : Nat),
    (∀ j, j < ms.length → acceptsAt env (i + j) = false) →
    processedCount env i ms = ms.length := by
  intro ms
  induction ms with
  | nil => intro i _; simp [processedCount]
  | cons m rest ih =>
      intro i h
      have h0 : acceptsAt env i = false := by simpa using h 0 (by simp)
      have hshift : ∀ j, j < rest.length → acceptsAt env (i + 1 + j) = false := by
        intro j hj
        rw [show i + 1 + j = i + (j + 1) by omega]
        exact h (j + 1) (by simp; omega)
      simp [processedCount, h0, ih (i + 1) hshift, Nat.one_add]

/-- If the first `n` attempts are all refused and an `(n+1)`-th model is
available, the loop processes at least `n + 1` models. -/
theorem processedCount_ge (env : Nat → TransportResult) :
    ∀ (ms : List String) (i n : Nat),
    (∀ l, l < n → acceptsAt env (i + l) = false) →
    n < ms.length →
    n + 1 ≤ processedCount env i ms := by
  intro ms
  induction ms with
  | nil => intro i n _ hn; simp at hn
  | cons m rest ih =>
      intro i n h hn
      cases n with
      | zero => simp [processedCount]
      | succ n' =>
          have h0 : acceptsAt env i = false := by
            simpa using h 0 (Nat.succ_pos n')
          have hshift : ∀ l, l < n' → acceptsAt env (i + 1 + l) = false := by
            intro l hl
            rw [show i + 1 + l = i + (l + 1) by omega]
            exact h (l + 1) (by omega)
          have := ih (i + 1) n' hshift (by simpa using hn)
          simp [processedCount, h0, Nat.one_add]
          omega

/-- Length of the spec-level log: one entry per attempt plus one per
timeout/exception attempt. -/
theorem logOf_length (env : Nat → TransportResult) :
    ∀ (ms : List String) (i : Nat),
    (logOf env i ms).length = ms.length + teCount env i ms := by
  intro ms
  induction ms with
  | nil => intro i; simp [logOf, teCount]
  | cons m rest ih =>
      intro i
      cases hc : classify (env i) with
      | accept s => simp [logOf, entriesFor, teCount, isTE, hc, ih]; omega
      | timeout => simp [logOf, entriesFor, teCount, isTE, hc, ih]; omega
      | exception => simp [logOf, entriesFor, teCount, isTE, hc, ih]; omega
      | emptyResponse | noChoices | rateLimited | overloaded | httpError =>
          simp [logOf, entriesFor, teCount, isTE, hc, ih]; omega

/-- With no timeout or exception, the extra-entry count vanishes. -/
theorem teCount_eq_zero (env : Nat → TransportResult) :
    ∀ (ms : List String) (i : Nat),
    (∀ j, j < ms.length → isTE (classify (env (i + j))) = false) →
    teCount env i ms = 0 := by
  intro ms
  induction ms with
  | nil => intro i _; simp [teCount]
  | cons m rest ih =>
      intro i h
      have h0 : isTE (classify (env i)) = false := by simpa using h 0 (by simp)
      have hshift : ∀ j, j < rest.length →
          isTE (classify (env (i + 1 + j))) = false := by
        intro j hj
        rw [show i + 1 + j = i + (j + 1) by omega]
        exact h (j + 1) (by simp; omega)
      simp [teCount, h0, ih (i + 1) hshift]

/-- The final attempts list is the spec-level log of the contacted models. -/
theorem smart_attempts_log (env : Nat → TransportResult) (k : Nat) :
    (smart_translate_humor env k).attempts
      = logOf env 0 ((smart_translate_humor env k).contacted) := by
  unfold smart_translate_humor
  rw [runLoop_attempts_eq, runLoop_contacted_eq]

/-- An attempt is classified as accepted exactly for an HTTP 200 whose
extracted content strips to more than 10 characters. -/
theorem classify_accept_iff (r : TransportResult) (s : String) :
    classify r = .accept s ↔
      (r = .response 200 (.content s) ∧ 10 < (pyStrip s).length) := by
  constructor
  · intro h
    cases r with
    | timeout => simp [classify] at h
    | netError => simp [classify] at h
    | response st body =>
        cases body with
        | malformed => simp only [classify] at h; split_ifs at h
        | noChoices => simp only [classify] at h; split_ifs at h
        | badChoices => simp only [classify] at h; split_ifs at h
        | content t =>
            simp only [classify] at h
            split_ifs at h
            simp_all
  · rintro ⟨rfl, hl⟩
    simp [classify, hl]

/-! ### Test environments (concrete oracle functions for witnesses and
counterexamples) -/

/-- Every model answers 200 with a 12-character content. -/
def envA : Nat → TransportResult :=
  fun _ => .response 200 (.content "abcdefghijkl")

/-- Every model times out. -/
def envT : Nat → TransportResult := fun _ => .timeout

/-- Every model answers HTTP 429. -/
def env429 : Nat → TransportResult := fun _ => .response 429 .noChoices

/-- Every model answers HTTP 503. -/
def env503 : Nat → TransportResult := fun _ => .response 503 .noChoices

/-- First model times out, the rest answer HTTP 429. -/
def envC7 : Nat → TransportResult :=
  fun i => if i = 0 then .timeout else .response 429 .noChoices

/-- First model answers 200 without a `"choices"` key, the rest time out. -/
def envNC : Nat → TransportResult :=
  fun i => if i = 0 then .response 200 .noChoices else .timeout

/-! ### Claims -/

/-- C1: an attempt is accepted iff the HTTP status is 200, the body parses
with generated content, and the stripped content is longer than 10
characters; on the first accepted attempt the sequencer returns at once
with that content, that model identifier, and the log so far including the
successful attempt; an accepted produced text always strips to more than
10 characters. -/
theorem C1_accept_iff_valid :
    (∀ r s, classify r = .accept s ↔
        (r = .response 200 (.content s) ∧ 10 < (pyStrip s).length)) ∧
    (∀ env k s, (smart_translate_humor env k).producedText = some s →
        10 < (pyStrip s).length) ∧
    (∀ env k j s, j < (FREE_MODELS.take k).length →
        (∀ l, l < j → acceptsAt env l = false) →
        classify (env j) = .accept s →
        (smart_translate_humor env k).producedText = some s ∧
        (smart_translate_humor env k).modelUsed = (FREE_MODELS.take k)[j]? ∧
        (smart_translate_humor env k).attempts
          = logOf env 0 ((FREE_MODELS.take k).take (j + 1))) := by
  refine ⟨classify_accept_iff, ?_, ?_⟩
  · intro env k s h
    obtain ⟨j, _, _, hacc, _, _⟩ := runLoop_some env k (FREE_MODELS.take k) 0 s h
    exact ((classify_accept_iff _ _).mp hacc).2
  · intro env k j s hj hprev hacc
    have hprev' : ∀ l, l < j → acceptsAt env (0 + l) = false := by
      intro l hl; rw [Nat.zero_add]; exact hprev l hl
    have hacc' : classify (env (0 + j)) = .accept s := by
      rw [Nat.zero_add]; exact hacc
    obtain ⟨h1, h2, h3⟩ :=
      runLoop_accept env k (FREE_MODELS.take k) 0 j s hj hprev' hacc'
    refine ⟨h1, h2, ?_⟩
    unfold smart_translate_humor
    rw [runLoop_attempts_eq, h3]

/-- C1 witness: with every model answering a valid 12-character content,
the first call is accepted and returned. -/
theorem C1_accept_iff_valid_witness :
    (smart_translate_humor envA 1).producedText = some "abcdefghijkl" :=
  (C1_accept_iff_valid.2.2 envA 1 0 "abcdefghijkl" (by decide)
    (fun l hl => absurd hl (Nat.not_lt_zero l)) (by decide)).1

/-- C2 counterexample: with one permitted attempt that times out, no model
accepts, the result is (absent, absent, log), yet the log has two entries,
not one. -/
theorem C2_log_length_counterexample :
    acceptsAt envT 0 = false ∧
    (smart_translate_humor envT 1).producedText = none ∧
    (smart_translate_humor envT 1).modelUsed = none ∧
    ¬ (smart_translate_humor envT 1).attempts.length = 1 := by decide

/-- C2 amended: if all `k` permitted attempts (with `k` within the model
list) are refused, the sequencer returns (absent, absent, log) where the
log lists the `k` attempted models in priority order with one base entry
each plus one extra tagged entry per timeout/exception attempt — so
exactly `k` entries exactly when no attempt timed out or raised. -/
theorem C2_exhaustion_amended (env : Nat → TransportResult) (k : Nat)
    (hk : k ≤ FREE_MODELS.length)
    (hfail : ∀ j, j < k → acceptsAt env j = false) :
    (smart_translate_humor env k).producedText = none ∧
    (smart_translate_humor env k).modelUsed = none ∧
    (smart_translate_humor env k).attempts
      = logOf env 0 (FREE_MODELS.take k) ∧
    (smart_translate_humor env k).attempts.length
      = k + teCount env 0 (FREE_MODELS.take k) ∧
    ((∀ j, j < k → isTE (classify (env j)) = false) →
      (smart_translate_humor env k).attempts.length = k) := by
  have hlen : (FREE_MODELS.take k).length = k := by
    rw [List.length_take]; omega
  have hfail' : ∀ j, j < (FREE_MODELS.take k).length →
      acceptsAt env (0 + j) = false := by
    intro j hj; rw [Nat.zero_add]; exact hfail j (hlen ▸ hj)
  have hnone := runLoop_none env k (FREE_MODELS.take k) 0 hfail'
  have hpc := processedCount_eq_length env (FREE_MODELS.take k) 0 hfail'
  have hatts : (smart_translate_humor env k).attempts
      = logOf env 0 (FREE_MODELS.take k) := by
    unfold smart_translate_humor
    rw [runLoop_attempts_eq, hpc, List.take_length]
  refine ⟨hnone.1, hnone.2, hatts, ?_, ?_⟩
  · rw [hatts, logOf_length, hlen]
  · intro hTE
    have hTE0 : teCount env 0 (FREE_MODELS.take k) = 0 := by
      apply teCount_eq_zero
      intro j hj
      rw [Nat.zero_add]
      exact hTE j (hlen ▸ hj)
    rw [hatts, logOf_length, hlen, hTE0]
    omega

/-- C2 witness: the all-timeout environment with one permitted attempt. -/
theorem C2_exhaustion_amended_witness :
    (smart_translate_humor envT 1).attempts.length
      = 1 + teCount envT 0 (FREE_MODELS.take 1) :=
  (C2_exhaustion_amended envT 1 (by decide) (by decide)).2.2.2.1

/-- C3 counterexample: a single timed-out attempt contacts one model yet
leaves two log entries, refuting one-entry-per-contacted-model. -/
theorem C3_one_entry_counterexample :
    (smart_translate_humor envT 1).contacted.length = 1 ∧
    (smart_translate_humor envT 1).attempts.length = 2 := by decide

/-- C3 amended: in every termination mode the log is the concatenation, in
contact order, of each contacted model's entries — the base entry, plus a
tagged second entry exactly when that attempt timed out or raised — so the
log length is the number of contacted models plus the number of
timeout/exception attempts. -/
theorem C3_log_entries_amended (env : Nat → TransportResult) (k : Nat) :
    (smart_translate_humor env k).attempts
      = logOf env 0 ((smart_translate_humor env k).contacted) ∧
    (smart_translate_humor env k).attempts.length
      = (smart_translate_humor env k).contacted.length
        + teCount env 0 ((smart_translate_humor env k).contacted) := by
  refine ⟨smart_attempts_log env k, ?_⟩
  rw [smart_attempts_log env k, logOf_length]

/-- C4 counterexample: a 429 attempt and a 503 attempt yield identical
sequencer results — in particular identical logs — so the log entry of a
non-accepted HTTP-classified attempt carries no outcome tag. -/
theorem C4_untagged_counterexample :
    classify (env429 0) = .rateLimited ∧
    classify (env503 0) = .overloaded ∧
    smart_translate_humor env429 1 = smart_translate_humor env503 1 := by
  refine ⟨by decide, by decide, rfl⟩

/-- C4 amended: only timeout and exception attempts get an outcome tag in
the log (a second entry suffixed " - Timeout" / " - Error"); attempts
ending in empty-response, rate-limited, overloaded, http-error or a
missing-choices 200 leave just the untagged base entry, and the attempts
list is exactly these per-attempt entries in contact order. -/
theorem C4_tagging_amended (env : Nat → TransportResult) (k : Nat)
    (i : Nat) (m : String) :
    entriesFor i m .timeout
      = [attemptEntry i m, attemptEntry i m ++ " - Timeout"] ∧
    entriesFor i m .exception
      = [attemptEntry i m, attemptEntry i m ++ " - Error"] ∧
    (∀ o, isTE o = false → entriesFor i m o = [attemptEntry i m]) ∧
    (smart_translate_humor env k).attempts
      = logOf env 0 ((smart_translate_humor env k).contacted) := by
  refine ⟨rfl, rfl, ?_, smart_attempts_log env k⟩
  intro o ho
  cases o <;> first | rfl | simp [isTE] at ho

/-- C4 witness: a rate-limited attempt contributes only its base entry. -/
theorem C4_tagging_amended_witness :
    entriesFor 0 "a/b" .rateLimited = [attemptEntry 0 "a/b"] :=
  (C4_tagging_amended env429 1 0 "a/b").2.2.1 .rateLimited (by decide)

/-- C5: with budget `k` the sequencer contacts at most `k` models, each at
most once (the contacted list is duplicate-free, every contacted model
appears exactly once, and all come from the priority list). -/
theorem C5_budget_no_revisit (env : Nat → TransportResult) (k : Nat) :
    (smart_translate_humor env k).contacted.length ≤ k ∧
    (smart_translate_humor env k).contacted.Nodup ∧
    (∀ m, m ∈ (smart_translate_humor env k).contacted →
      (smart_translate_humor env k).contacted.count m = 1) ∧
    (∀ m, m ∈ (smart_translate_humor env k).contacted → m ∈ FREE_MODELS) := by
  have hc : (smart_translate_humor env k).contacted
      = (FREE_MODELS.take k).take
          (processedCount env 0 (FREE_MODELS.take k)) := by
    unfold smart_translate_humor
    rw [runLoop_contacted_eq]
  have hsub : List.Sublist (smart_translate_humor env k).contacted
      FREE_MODELS := by
    rw [hc]
    exact (List.take_sublist _ _).trans (List.take_sublist _ _)
  have hnodup : (smart_translate_humor env k).contacted.Nodup :=
    List.Nodup.sublist hsub (by decide)
  refine ⟨?_, hnodup, ?_, ?_⟩
  · rw [hc, List.length_take, List.length_take]
    omega
  · intro m hm
    exact List.count_eq_one_of_mem hnodup hm
  · intro m hm
    exact hsub.subset hm

/-- C5 witness: after a successful first attempt, that model was contacted
exactly once. -/
theorem C5_budget_no_revisit_witness :
    (smart_translate_humor envA 1).contacted.count
      "mistralai/mistral-small-3.2-24b-instruct:free" = 1 :=
  (C5_budget_no_revisit envA 1).2.2.1
    "mistralai/mistral-small-3.2-24b-instruct:free" (by decide)

/-- C6 counterexample: a whitespace-only source text is empty after
trimming, yet the caller does not short-circuit — the sequencer runs and a
model is contacted. -/
theorem C6_trim_validation_counterexample :
    pyStrip " " = "" ∧
    translate_button envT " " "x" 1 = some (smart_translate_humor envT 1) ∧
    ¬ (smart_translate_humor envT 1).contacted = [] := by decide

/-- C6 amended: the caller short-circuits (no sequencer call, no attempts)
exactly when the raw, untrimmed source text or target culture is the empty
string; any other input — including whitespace-only strings that are empty
after trimming — invokes the sequencer. -/
theorem C6_validation_amended (env : Nat → TransportResult)
    (s t : String) (k : Nat) :
    (translate_button env s t k = none ↔ (s = "" ∨ t = "")) ∧
    (s ≠ "" → t ≠ "" →
      translate_button env s t k = some (smart_translate_humor env k)) := by
  by_cases hs : s = "" <;> by_cases ht : t = "" <;>
    simp [translate_button, pyTruthy, hs, ht]

/-- C6 witness: non-empty inputs reach the sequencer. -/
theorem C6_validation_amended_witness :
    translate_button envT "hi" "x" 1 = some (smart_translate_humor envT 1) :=
  (C6_validation_amended envT "hi" "x" 1).2 (by decide) (by decide)

/-- C7 counterexample: two attempts, the first a timeout (non-accepted and
not the last), yet the sequencer sleeps zero seconds — the claimed pause
after every non-accepted non-final attempt does not happen. -/
theorem C7_pause_counterexample :
    acceptsAt envC7 0 = false ∧
    (smart_translate_humor envC7 2).contacted.length = 2 ∧
    (smart_translate_humor envC7 2).sleepSeconds = 0 := by decide

/-- C7 amended: the total pause time is a fixed 2 seconds per counted
pause (never growing), where a pause happens after an attempt exactly when
the attempt completed its HTTP round-trip without being accepted (it is
skipped after accepted, timed-out and exception attempts) and the attempt
is not the last permitted one. -/
theorem C7_pause_amended (env : Nat → TransportResult) (k : Nat) :
    (smart_translate_humor env k).sleepSeconds
      = 2 * pauseCount env k 0 (FREE_MODELS.take k) ∧
    (∀ o, sleepsAfter o = true ↔
      (isTE o = false ∧ ∀ s, ¬ o = .accept s)) := by
  constructor
  · unfold smart_translate_humor
    rw [runLoop_slept_eq]
  · intro o
    cases o <;> simp [sleepsAfter, isTE]

/-- C7 witness: concrete pause accounting for the timeout-then-429 run. -/
theorem C7_pause_amended_witness :
    (smart_translate_humor envC7 2).sleepSeconds
      = 2 * pauseCount envC7 2 0 (FREE_MODELS.take 2) :=
  (C7_pause_amended envC7 2).1

/-- C8: a TranslationRecord is created only when the sequencer reports a
model used (none is created after total failure), and a created record
carries exactly the accepted attempt's model identifier and text. -/
theorem C8_record_requires_model (env : Nat → TransportResult) (k : Nat)
    (save_flag : Bool) (ue s t : String) :
    ((smart_translate_humor env k).modelUsed = none →
      render_translation ue s t save_flag (smart_translate_humor env k)
        = none) ∧
    (∀ rec, render_translation ue s t save_flag (smart_translate_humor env k)
        = some rec →
      (smart_translate_humor env k).modelUsed = some rec.model_used ∧
      (smart_translate_humor env k).producedText
        = some rec.translated_text ∧
      ∃ j, j < (FREE_MODELS.take k).length ∧
        (FREE_MODELS.take k)[j]? = some rec.model_used ∧
        classify (env j) = .accept rec.translated_text) := by
  constructor
  · intro hmu
    have hpt : (smart_translate_humor env k).producedText = none :=
      (runLoop_none_iff env k (FREE_MODELS.take k) 0).mpr hmu
    simp [render_translation, pyTruthyOpt, hpt]
  · intro rec hr
    cases hpt : (smart_translate_humor env k).producedText with
    | none => simp [render_translation, pyTruthyOpt, hpt] at hr
    | some text =>
        cases hmu : (smart_translate_humor env k).modelUsed with
        | none =>
            simp [render_translation, pyTruthyOpt, hpt, hmu] at hr
        | some mu =>
            simp only [render_translation, pyTruthyOpt, hpt, hmu,
              Option.getD_some] at hr
            split_ifs at hr with h1 h2
            obtain ⟨j, hj, _, hacc, hmu', _⟩ :=
              runLoop_some env k (FREE_MODELS.take k) 0 text hpt
            rw [Nat.zero_add] at hacc
            injection hr with hr'
            subst hr'
            refine ⟨rfl, rfl, j, hj, ?_, ?_⟩
            · rw [← hmu']
              exact hmu
            · exact hacc

/-- C8 witness: a successful first attempt with saving on inserts a record
carrying the accepting model's identifier. -/
theorem C8_record_requires_model_witness :
    (smart_translate_humor envA 1).modelUsed
      = some "mistralai/mistral-small-3.2-24b-instruct:free" :=
  ((C8_record_requires_model envA 1 true "u" "joke" "culture").2
    ⟨"u", "joke", "culture", "abcdefghijkl",
      "mistralai/mistral-small-3.2-24b-instruct:free"⟩ (by decide)).1

/-- C9: the produced text and the model used are present or absent
together: both absent on total failure, both present on accept. -/
theorem C9_text_iff_model (env : Nat → TransportResult) (k : Nat) :
    ((smart_translate_humor env k).producedText = none ↔
      (smart_translate_humor env k).modelUsed = none) ∧
    ((smart_translate_humor env k).producedText.isSome ↔
      (smart_translate_humor env k).modelUsed.isSome) := by
  have h : ((smart_translate_humor env k).producedText = none ↔
      (smart_translate_humor env k).modelUsed = none) :=
    runLoop_none_iff env k (FREE_MODELS.take k) 0
  refine ⟨h, ?_⟩
  constructor
  · intro hx
    cases hmu : (smart_translate_humor env k).modelUsed with
    | some _ => simp
    | none => simp [h.mpr hmu] at hx
  · intro hx
    cases hpt : (smart_translate_humor env k).producedText with
    | some _ => simp
    | none => simp [h.mp hpt] at hx

/-- C10: a 200 response whose parsed body lacks a `"choices"` key is never
accepted, leaves only the untagged base entry for that attempt, falls
through to the inter-attempt pause, and the loop silently proceeds to
contact the next model. -/
theorem C10_missing_choices_silent (env : Nat → TransportResult)
    (k j : Nat)
    (hj : j + 1 < (FREE_MODELS.take k).length)
    (hprev : ∀ l, l < j + 1 → acceptsAt env l = false)
    (hnc : classify (env j) = .noChoices) :
    (∀ s, ¬ classify (env j) = .accept s) ∧
    entriesFor j ((FREE_MODELS.take k).getD j "") (classify (env j))
      = [attemptEntry j ((FREE_MODELS.take k).getD j "")] ∧
    sleepsAfter (classify (env j)) = true ∧
    j + 2 ≤ (smart_translate_humor env k).contacted.length := by
  refine ⟨by rw [hnc]; intro s h; exact Outcome.noConfusion h,
    by rw [hnc]; rfl, by rw [hnc]; rfl, ?_⟩
  have hprev' : ∀ l, l < j + 1 → acceptsAt env (0 + l) = false := by
    intro l hl; rw [Nat.zero_add]; exact hprev l hl
  have hpc := processedCount_ge env (FREE_MODELS.take k) 0 (j + 1) hprev' hj
  have : (smart_translate_humor env k).contacted
      = (FREE_MODELS.take k).take
          (processedCount env 0 (FREE_MODELS.take k)) := by
    unfold smart_translate_humor
    rw [runLoop_contacted_eq]
  rw [this, List.length_take]
  omega

/-- C10 witness: a missing-choices 200 on the first of two attempts still
lets the loop contact the second model. -/
theorem C10_missing_choices_silent_witness :
    2 ≤ (smart_translate_humor envNC 2).contacted.length :=
  (C10_missing_choices_silent envNC 2 0 (by decide) (by decide)
    (by decide)).2.2.2

end HumorApp
